import Mathlib

/-!
Shallow embedding of the security core of `src/security.py` (gomsubot):
input validation, attack-signature detection, fixed-window rate limiting,
the block registry, suspicious-message escalation, the middleware gate, and
the HMAC signing utility.  Timestamps are integers (seconds); MongoDB
documents become Lean structures; the collections become lists carried in an
explicit state.  Each definition is translated from the corresponding Python
function; theorems below settle the specification claims.
-/

/-- Rate-limit counter document stored in `rate_limits_collection`
(`src/security.py` lines 173-180): `count`, `window_start`, `last_action`.
The `key`/`user_id`/`action_type` fields identify the document; here one
counter state is modelled per key, so they are left implicit. -/
structure RateData where
  count : Int
  window_start : Int
  last_action : Int
deriving DecidableEq

/-- The enabled path of `SecurityManager.check_rate_limit`
(`src/security.py` lines 153-240), for one `(user, action)` key, as a pure
transition: given the stored counter (if any), the current time, the limit
and the window, return the decision (`true` = within limits) and the counter
document left in the store.  Mirrors the Python exactly: a missing document
is created with count 1 and allowed; a document whose `window_start` is
strictly older than `now - window_seconds` is reset to count 1 and allowed;
otherwise the count is incremented and the call is allowed iff the new count
is at most the limit. -/
def check_rate_limit (st : Option RateData) (now : Int) (limit : Int)
    (window_seconds : Int) : Bool × RateData :=
  match st with
  | none => (true, ⟨1, now, now⟩)
  | some rd =>
    if rd.window_start < now - window_seconds then
      (true, ⟨1, now, now⟩)
    else
      (decide (rd.count + 1 ≤ limit), ⟨rd.count + 1, rd.window_start, now⟩)

/-- Sequential execution of `check_rate_limit` at a list of call times,
threading the stored counter; returns the list of decisions and the final
stored counter. -/
def run_rate_checks (st : Option RateData) (times : List Int) (limit : Int)
    (window_seconds : Int) : List Bool × Option RateData :=
  match times with
  | [] => ([], st)
  | t :: ts =>
    let r := check_rate_limit st t limit window_seconds
    let rest := run_rate_checks (some r.2) ts limit window_seconds
    (r.1 :: rest.1, rest.2)

/-- The write half of `check_rate_limit` as the code performs it against the
live store: the document written depends only on the value `observed` by the
earlier `find_one` (lines 169-203), while `update_one` with a partial set of
fields applies to the `store` content at write time.  On the
not-expired path the code sets only `count` and `last_action`, so
`window_start` keeps the store's current value. -/
def rate_apply_write (store : Option RateData) (observed : Option RateData)
    (now : Int) (window_seconds : Int) : Option RateData :=
  match observed with
  | none => some ⟨1, now, now⟩
  | some rd =>
    if rd.window_start < now - window_seconds then
      some ⟨1, now, now⟩
    else
      match store with
      | none => none
      | some cur => some ⟨rd.count + 1, cur.window_start, now⟩

/-- When the read and the write are not interleaved with another writer,
the read-then-write pair of `check_rate_limit` leaves exactly the document
the combined transition describes. -/
theorem rate_apply_write_coherent (st : Option RateData) (now L W : Int) :
    rate_apply_write st st now W = some (check_rate_limit st now L W).2 := by
  cases st with
  | none => rfl
  | some rd =>
    simp only [rate_apply_write, check_rate_limit]
    by_cases h : rd.window_start < now - W <;> simp [h]

/-- Substring test: does `needle` occur contiguously inside `hay`?  Used to
model Python substring search and the `in`-style reason checks. -/
def containsSeg (needle : List Char) : List Char → Bool
  | [] => needle.isEmpty
  | c :: rest => needle.isPrefixOf (c :: rest) || containsSeg needle rest

/-- String-level wrapper of `containsSeg`. -/
def containsStr (needle hay : String) : Bool :=
  containsSeg needle.toList hay.toList

/-- Block document stored in `blocked_users_collection`
(`src/security.py` lines 257-263). -/
structure Block where
  user_id : Int
  reason : String
  blocked_at : Int
  blocked_by : Option Int
  expiry : Option Int
deriving DecidableEq

/-- Security-log document written by `log_security_event`
(`src/security.py` lines 82-88).  Of the free-form `details` dictionary only
the `reason` entry matters to the claims, so it is kept as an optional
field. -/
structure SecEvent where
  event_type : String
  user_id : Int
  severity : String
  timestamp : Int
  details_reason : Option String
deriving DecidableEq

/-- The two mutable collections the security manager touches:
`security_logs_collection` (append-only) and `blocked_users_collection`. -/
structure SecState where
  security_logs : List SecEvent
  blocked_users : List Block
deriving DecidableEq

/-- `SecurityManager.log_security_event` (`src/security.py` lines 80-94):
append one document to the security log. -/
def log_security_event (st : SecState) (event_type : String) (user_id : Int)
    (details_reason : Option String) (severity : String) (now : Int) :
    SecState :=
  { st with security_logs :=
      st.security_logs ++ [⟨event_type, user_id, severity, now, details_reason⟩] }

/-- Mongo `update_one`: replace the fields of the first document matching
`user_id` with `nb`, leaving every other document alone. -/
def updateFirstBlock : List Block → Int → Block → List Block
  | [], _, _ => []
  | b :: rest, uid, nb =>
    if b.user_id == uid then nb :: rest else b :: updateFirstBlock rest uid nb

/-- Mongo `delete_one`: remove the first document matching `user_id`. -/
def eraseFirstBlock : List Block → Int → List Block
  | [], _ => []
  | b :: rest, uid =>
    if b.user_id == uid then rest else b :: eraseFirstBlock rest uid

/-- The block document `block_user` builds (`src/security.py` lines 254-263):
`expiry = now + timedelta(days=duration_days) if duration_days else None`,
so a `0`-day (falsy) duration also yields a permanent block.  Days are
converted to seconds. -/
def block_data (user_id : Int) (reason : String) (admin_id : Option Int)
    (duration_days : Option Int) (now : Int) : Block :=
  ⟨user_id, reason, now, admin_id,
    match duration_days with
    | some d => if d == 0 then none else some (now + d * 86400)
    | none => none⟩

/-- The persistence effect of `SecurityManager.block_user`
(`src/security.py` lines 251-318): upsert the single block document for the
user (`update_one` on the first match if one exists, `insert_one`
otherwise), then log a `user_blocked` event carrying the reason.  The
best-effort admin and user notifications have no persistent effect and are
not modelled; the success return value is `true` on this no-error path. -/
def block_user (st : SecState) (user_id : Int) (reason : String)
    (admin_id : Option Int) (duration_days : Option Int) (now : Int) :
    SecState :=
  let bd := block_data user_id reason admin_id duration_days now
  let blocks :=
    if (st.blocked_users.find? fun b => b.user_id == user_id).isSome then
      updateFirstBlock st.blocked_users user_id bd
    else
      st.blocked_users ++ [bd]
  { security_logs :=
      st.security_logs ++ [⟨"user_blocked", user_id, "warning", now, some reason⟩],
    blocked_users := blocks }

/-- `SecurityManager.unblock_user` (`src/security.py` lines 320-361):
`delete_one` the block; if nothing was deleted return `false` and change
nothing, otherwise log a `user_unblocked` event and return `true`. -/
def unblock_user (st : SecState) (user_id : Int) (admin_id : Option Int)
    (now : Int) : Bool × SecState :=
  match st.blocked_users.find? fun b => b.user_id == user_id with
  | none => (false, st)
  | some _ =>
    (true,
      { security_logs :=
          st.security_logs ++ [⟨"user_unblocked", user_id, "info", now, none⟩],
        blocked_users := eraseFirstBlock st.blocked_users user_id })

/-- `SecurityManager.is_user_blocked` on the no-error path
(`src/security.py` lines 242-249): a `find_one` lookup. -/
def is_user_blocked (st : SecState) (user_id : Int) : Bool :=
  (st.blocked_users.find? fun b => b.user_id == user_id).isSome

/-- The 24-hour suspicious-message count of `process_suspicious_message`
(`src/security.py` lines 417-421): documents with event type
`suspicious_message`, this user, and timestamp strictly newer than
`now - 24h`. -/
def count_recent_suspicious (st : SecState) (user_id : Int) (now : Int) : Nat :=
  st.security_logs.countP fun e =>
    e.event_type == "suspicious_message" && e.user_id == user_id &&
      decide (now - 86400 < e.timestamp)

/-- Python regex `\s` over the byte range: space, tab, newline, carriage
return, vertical tab, form feed. -/
def pyWhitespace (c : Char) : Bool :=
  c == ' ' || c == '\t' || c == '\n' || c == '\x0d' || c == '\x0b' || c == '\x0c'

/-- ASCII letter test, the `[A-Za-z]` character ranges. -/
def asciiAlpha (c : Char) : Bool :=
  ('A' ≤ c && c ≤ 'Z') || ('a' ≤ c && c ≤ 'z')

/-- The single-quote character, `chr 39`. -/
def squote : Char := Char.ofNat 39

/-- The double-quote character, `chr 34`. -/
def dquote : Char := Char.ofNat 34

/-- Character class of the `name` rule: `[A-Za-z0-9\s\-_.]`. -/
def nameChar (c : Char) : Bool :=
  asciiAlpha c || c.isDigit || pyWhitespace c || c == '-' || c == '_' || c == '.'

/-- Character class of the `ogs_username` rule: `[A-Za-z0-9\-_.]`. -/
def ogsChar (c : Char) : Bool :=
  asciiAlpha c || c.isDigit || c == '-' || c == '_' || c == '.'

/-- Full match of `^[A-Za-z0-9\s\-_.]{2,50}$` without the end-of-line
subtlety (handled by `anchoredMatch`). -/
def nameFull (l : List Char) : Bool :=
  l.all nameChar && 2 ≤ l.length && l.length ≤ 50

/-- Full match of the `rank` rule `^(3[0]|[1-2][0-9]|[1-9])k$|^([1-9])d$`:
ranks 1k-30k and 1d-9d. -/
def rankFull (l : List Char) : Bool :=
  match l with
  | [a, b] => ('1' ≤ a && a ≤ '9') && (b == 'k' || b == 'd')
  | [a, b, c] =>
    ((a == '3' && b == '0') || ((a == '1' || a == '2') && b.isDigit)) && c == 'k'
  | _ => false

/-- Full match of `^[A-Za-z0-9\-_.]{3,20}$`. -/
def ogsFull (l : List Char) : Bool :=
  l.all ogsChar && 3 ≤ l.length && l.length ≤ 20

/-- Full match of the `date` rule `^\d{4}-\d{2}-\d{2}$` (ASCII digits). -/
def dateFull (l : List Char) : Bool :=
  match l with
  | [a, b, c, d, e, f, g, h, i, j] =>
    a.isDigit && b.isDigit && c.isDigit && d.isDigit && e == '-' &&
      f.isDigit && g.isDigit && h == '-' && i.isDigit && j.isDigit
  | _ => false

/-- Full match of the `time` rule `^\d{2}:\d{2}$`. -/
def timeFull (l : List Char) : Bool :=
  match l with
  | [a, b, c, d, e] => a.isDigit && b.isDigit && c == ':' && d.isDigit && e.isDigit
  | _ => false

/-- Full match of the `url` rule `^https?://.+$`: scheme then at least one
character, none of which may be a newline (`.` without `DOTALL`). -/
def urlFull (l : List Char) : Bool :=
  (("http://".toList).isPrefixOf l &&
    (l.drop 7 ≠ [] && (l.drop 7).all (· ≠ '\n'))) ||
  (("https://".toList).isPrefixOf l &&
    (l.drop 8 ≠ [] && (l.drop 8).all (· ≠ '\n')))

/-- Python `re.match` with a `^...$` pattern: `$` also matches just before a
single trailing newline, so the value matches if the full-match predicate
accepts it outright or after dropping one final newline. -/
def anchoredMatch (full : List Char → Bool) (l : List Char) : Bool :=
  full l || (l.getLast? == some '\n' && full l.dropLast)

/-- The `self.patterns` dictionary (`src/security.py` lines 59-66): the
validation rule registered for a field type, if any. -/
def patterns (input_type : String) : Option (List Char → Bool) :=
  if input_type == "name" then some (anchoredMatch nameFull)
  else if input_type == "rank" then some (anchoredMatch rankFull)
  else if input_type == "ogs_username" then some (anchoredMatch ogsFull)
  else if input_type == "date" then some (anchoredMatch dateFull)
  else if input_type == "time" then some (anchoredMatch timeFull)
  else if input_type == "url" then some (anchoredMatch urlFull)
  else none

/-- `SecurityManager.validate_input` (`src/security.py` lines 119-128): a
falsy value (absent, or the empty string) is rejected; a field type with no
registered rule is accepted; otherwise the value is matched against the
rule. -/
def validate_input (input_type : String) (value : Option String) : Bool :=
  match value with
  | none => false
  | some v =>
    if v == "" then false
    else
      match patterns input_type with
      | none => true
      | some p => p v.toList

/-- Search for the first occurrence of `n` in the haystack and return what
follows it, or `none` when `n` does not occur. -/
def dropAfter (n : List Char) : List Char → Option (List Char)
  | [] => if n.isEmpty then some [] else none
  | c :: t =>
    if n.isPrefixOf (c :: t) then some ((c :: t).drop n.length)
    else dropAfter n t

/-- Ordered occurrence test: each needle of `ns` occurs in `l`, in order and
without overlap; the existence semantics of a regex alternating literal
pieces with `.*?` gaps under `DOTALL` (taking the first occurrence of each
needle leaves the longest remainder, so the greedy scan is complete). -/
def existsSeq (l : List Char) : List (List Char) → Bool
  | [] => true
  | n :: rest =>
    match dropAfter n l with
    | some r => existsSeq r rest
    | none => false

/-- Signature 1, `<script.*?>.*?</script>` with `IGNORECASE | DOTALL`,
applied to the already-lowercased text. -/
def patScriptTag (l : List Char) : Bool :=
  existsSeq l ["<script".toList, ">".toList, "</script>".toList]

/-- Tail of signature 7 after the closing quote: `\s*=` (here `\s` may be a
newline: `\s` ignores `DOTALL`). -/
def sqlTail : List Char → Bool
  | [] => false
  | c :: rest => if c == '=' then true else pyWhitespace c && sqlTail rest

/-- Signature 7 after the boolean keyword: a `.*?` gap (newline-free, since
the pattern has no `DOTALL`) up to a quote character whose tail matches
`\s*=`. -/
def sqlAfterKw : List Char → Bool
  | [] => false
  | c :: rest =>
    ((c == squote || c == dquote) && sqlTail rest) ||
      (c ≠ '\n' && sqlAfterKw rest)

/-- Signature 7 after the opening quote: a newline-free gap up to `or` or
`and` (the text is lowercased), then `sqlAfterKw`. -/
def sqlAfterQuote (l : List Char) : Bool :=
  (("or".toList).isPrefixOf l && sqlAfterKw (l.drop 2)) ||
  (("and".toList).isPrefixOf l && sqlAfterKw (l.drop 3)) ||
  (match l with
   | [] => false
   | c :: rest => c ≠ '\n' && sqlAfterQuote rest)

/-- Signature 7, the SQL-injection pattern
`(?:\x27|\x22).*?(?:OR|AND).*?(?:\x27|\x22)\s*=` with `IGNORECASE`, on the
lowercased text: search for an opening quote anywhere, then run
`sqlAfterQuote` on its tail. -/
def patSqlQuote : List Char → Bool
  | [] => false
  | c :: rest =>
    ((c == squote || c == dquote) && sqlAfterQuote rest) || patSqlQuote rest

/-- Second keyword group of signature 8 after the mandatory whitespace:
optional further whitespace then `from`, `into` or `table`. -/
def sqlKw2 : List Char → Bool
  | [] => false
  | c :: rest =>
    ("from".toList).isPrefixOf (c :: rest) ||
    ("into".toList).isPrefixOf (c :: rest) ||
    ("table".toList).isPrefixOf (c :: rest) ||
    (pyWhitespace c && sqlKw2 rest)

/-- Signature 8, `(?:INSERT|UPDATE|DELETE|DROP|SELECT)\s+(?:FROM|INTO|TABLE)`
with `IGNORECASE`, on the lowercased text: a DML/DDL keyword anywhere,
then at least one whitespace character, then the second keyword. -/
def patSqlCmd : List Char → Bool
  | [] => false
  | c :: rest =>
    ((("insert".toList).isPrefixOf (c :: rest) && wsThenKw2 (rest.drop 5)) ||
     (("update".toList).isPrefixOf (c :: rest) && wsThenKw2 (rest.drop 5)) ||
     (("delete".toList).isPrefixOf (c :: rest) && wsThenKw2 (rest.drop 5)) ||
     (("drop".toList).isPrefixOf (c :: rest) && wsThenKw2 (rest.drop 3)) ||
     (("select".toList).isPrefixOf (c :: rest) && wsThenKw2 (rest.drop 5))) ||
    patSqlCmd rest
where
  /-- The `\s+` part: one mandatory whitespace character, then `sqlKw2`. -/
  wsThenKw2 : List Char → Bool
    | [] => false
    | c :: rest => pyWhitespace c && sqlKw2 rest

/-- The ordered `self.attack_patterns` list (`src/security.py` lines
69-78), as predicates over the lowercased character list (every signature
carries `IGNORECASE`).  Signatures 2-6 are plain substring searches. -/
def attack_patterns : List (List Char → Bool) :=
  [patScriptTag,
   containsSeg "javascript:".toList,
   containsSeg "onload=".toList,
   containsSeg "onerror=".toList,
   containsSeg "%3cscript".toList,
   containsSeg "%22%3e%3cscript".toList,
   patSqlQuote,
   patSqlCmd]

/-- The `for pattern in self.attack_patterns` loop of
`detect_potential_attack`: index of the first signature matching the text,
if any. -/
def findFirstMatch (ps : List (List Char → Bool)) (l : List Char) :
    Option Nat :=
  match ps with
  | [] => none
  | p :: rest =>
    if p l then some 0 else (findFirstMatch rest l).map (· + 1)

/-- `SecurityManager.detect_potential_attack` (`src/security.py` lines
141-151): reject falsy input, otherwise scan the ordered signature list and
report the first signature that matches (the Python returns the matched
text; the embedding identifies the signature by its index). -/
def detect_potential_attack (value : String) : Bool × Option Nat :=
  if value == "" then (false, none)
  else
    match findFirstMatch attack_patterns (value.toList.map Char.toLower) with
    | some i => (true, some i)
    | none => (false, none)

/-- The persistence effect of `SecurityManager.process_suspicious_message`
(`src/security.py` lines 395-445): log the `suspicious_message` event
first, then count this user's suspicious events of the trailing 24 hours
(the count therefore includes the event just logged); if that count reaches
3, invoke `block_user` with a 1-day duration and an automated reason built
from the detection reason.  Message deletion and admin alerting are
transport effects without persistent state. -/
def process_suspicious_message (st : SecState) (user_id : Int)
    (reason : String) (now : Int) : SecState :=
  let st1 := log_security_event st "suspicious_message" user_id (some reason)
    "warning" now
  if 3 ≤ count_recent_suspicious st1 user_id now then
    block_user st1 user_id
      ("Automated block: Multiple suspicious messages (" ++ reason ++ ")")
      none (some 1) now
  else
    st1

/-- Result of a persistence read that may raise: `Except.error` stands for a
raised exception carrying its message. -/
abbrev DbRead (α : Type) := Except String α

/-- `SecurityManager.is_user_blocked` including its error handling
(`src/security.py` lines 242-249): the whole body sits in a
`try/except` whose handler returns `False`, so a failed `find_one` makes the
user count as not blocked. -/
def is_user_blocked_db (find_result : DbRead (Option Block)) : Bool :=
  match find_result with
  | Except.error _ => false
  | Except.ok b => b.isSome

/-- `SecurityManager.check_rate_limit` including its error handling
(`src/security.py` lines 237-240): the whole body sits in a `try/except`
whose handler returns `True`, so a failed counter read allows the action. -/
def check_rate_limit_db (find_result : DbRead (Option RateData)) (now : Int)
    (limit : Int) (window_seconds : Int) : Bool :=
  match find_result with
  | Except.error _ => true
  | Except.ok st => (check_rate_limit st now limit window_seconds).1

/-- Outcome of the pre-processing gate of `SecurityMiddleware`. -/
inductive GateResult where
  | allowed : GateResult
  | denied_blocked : GateResult
  | denied_rate : GateResult
  | denied_attack : GateResult
deriving DecidableEq

/-- Decision structure of `SecurityMiddleware.on_pre_process_message`
(`src/security.py` lines 455-505): blocked check, then the message rate
limit (30 per 60 seconds), then the attack scan on the text if any; the
persistence reads feeding the first two steps are passed in as `DbRead`
values so that the raised-exception case is representable. -/
def on_pre_process_message (blocked_read : DbRead (Option Block))
    (rate_read : DbRead (Option RateData)) (now : Int)
    (text : Option String) : GateResult :=
  if is_user_blocked_db blocked_read then GateResult.denied_blocked
  else if !check_rate_limit_db rate_read now 30 60 then GateResult.denied_rate
  else
    match text with
    | some t =>
      if (detect_potential_attack t).1 then GateResult.denied_attack
      else GateResult.allowed
    | none => GateResult.allowed

/-- Reduction of a word to 32 bits. -/
def w32 (n : Nat) : Nat := n % 4294967296

/-- Right rotation of a 32-bit word by `k` bits. -/
def rotr (k x : Nat) : Nat := w32 ((x >>> k) ||| (x <<< (32 - k)))

/-- SHA-256 choice function. -/
def sha2Ch (e f g : Nat) : Nat := (e &&& f) ^^^ ((4294967295 ^^^ e) &&& g)

/-- SHA-256 majority function. -/
def sha2Maj (a b c : Nat) : Nat := (a &&& b) ^^^ (a &&& c) ^^^ (b &&& c)

/-- SHA-256 big sigma 0. -/
def bigSigma0 (x : Nat) : Nat := rotr 2 x ^^^ rotr 13 x ^^^ rotr 22 x

/-- SHA-256 big sigma 1. -/
def bigSigma1 (x : Nat) : Nat := rotr 6 x ^^^ rotr 11 x ^^^ rotr 25 x

/-- SHA-256 small sigma 0. -/
def smallSigma0 (x : Nat) : Nat := rotr 7 x ^^^ rotr 18 x ^^^ (x >>> 3)

/-- SHA-256 small sigma 1. -/
def smallSigma1 (x : Nat) : Nat := rotr 17 x ^^^ rotr 19 x ^^^ (x >>> 10)

/-- The 64 SHA-256 round constants. -/
def K256 : List Nat :=
  [1116352408, 1899447441, 3049323471,
   3921009573, 961987163, 1508970993,
   2453635748, 2870763221, 3624381080,
   310598401, 607225278, 1426881987,
   1925078388, 2162078206, 2614888103,
   3248222580, 3835390401, 4022224774,
   264347078, 604807628, 770255983,
   1249150122, 1555081692, 1996064986,
   2554220882, 2821834349, 2952996808,
   3210313671, 3336571891, 3584528711,
   113926993, 338241895, 666307205,
   773529912, 1294757372, 1396182291,
   1695183700, 1986661051, 2177026350,
   2456956037, 2730485921, 2820302411,
   3259730800, 3345764771, 3516065817,
   3600352804, 4094571909, 275423344,
   430227734, 506948616, 659060556,
   883997877, 958139571, 1322822218,
   1537002063, 1747873779, 1955562222,
   2024104815, 2227730452, 2361852424,
   2428436474, 2756734187, 3204031479,
   3329325298]

/-- The SHA-256 initial hash value. -/
def H256 : List Nat :=
  [1779033703, 3144134277, 1013904242,
   2773480762, 1359893119, 2600822924,
   528734635, 1541459225]

/-- One schedule-extension step: append word
`sigma1 w[n-2] + w[n-7] + sigma0 w[n-15] + w[n-16]`. -/
def schedStep (w : List Nat) : List Nat :=
  let n := w.length
  w ++ [w32 (smallSigma1 (w.getD (n - 2) 0) + w.getD (n - 7) 0 +
             smallSigma0 (w.getD (n - 15) 0) + w.getD (n - 16) 0)]

/-- Extend a 16-word block to a 64-word message schedule. -/
def schedule (w : List Nat) : List Nat :=
  (List.range 48).foldl (fun acc _ => schedStep acc) w

/-- One SHA-256 compression round on the 8-word working state, where `x` is
the round word plus the round constant. -/
def sha2Round (s : List Nat) (x : Nat) : List Nat :=
  match s with
  | [a, b, c, d, e, f, g, h] =>
    let t1 := w32 (h + bigSigma1 e + sha2Ch e f g + x)
    let t2 := w32 (bigSigma0 a + sha2Maj a b c)
    [w32 (t1 + t2), a, b, c, w32 (d + t1), e, f, g]
  | other => other

/-- Compress one 16-word block into the running 8-word hash value. -/
def compressBlock (h : List Nat) (block : List Nat) : List Nat :=
  let s := ((schedule block).zipWith (fun wi ki => w32 (wi + ki)) K256).foldl
    sha2Round h
  h.zipWith (fun x y => w32 (x + y)) s

/-- Split a list into chunks of `k + 1` elements (the parameter is the
predecessor so that the chunk size is positive by construction). -/
def chunksOf (k : Nat) : List Nat → List (List Nat)
  | [] => []
  | x :: xs => (x :: xs.take k) :: chunksOf k (xs.drop k)
termination_by l => l.length
decreasing_by
  simp only [List.length_cons, List.length_drop]
  omega

/-- Big-endian 8-byte encoding of a natural number. -/
def bigEndian8 (n : Nat) : List Nat :=
  [(n >>> 56) % 256, (n >>> 48) % 256, (n >>> 40) % 256, (n >>> 32) % 256,
   (n >>> 24) % 256, (n >>> 16) % 256, (n >>> 8) % 256, n % 256]

/-- SHA-256 message padding: a `0x80` byte, zeros up to 56 mod 64, and the
bit length as 8 big-endian bytes. -/
def sha256Pad (msg : List Nat) : List Nat :=
  let zeros := (64 + 56 - (msg.length + 1) % 64) % 64
  msg ++ [128] ++ List.replicate zeros 0 ++ bigEndian8 (8 * msg.length)

/-- Pack big-endian 4-byte groups into 32-bit words. -/
def toWords (bytes : List Nat) : List Nat :=
  (chunksOf 3 bytes).map fun c =>
    ((c.getD 0 0 * 256 + c.getD 1 0) * 256 + c.getD 2 0) * 256 + c.getD 3 0

/-- Big-endian bytes of a 32-bit word. -/
def wordBytes (w : Nat) : List Nat :=
  [(w >>> 24) % 256, (w >>> 16) % 256, (w >>> 8) % 256, w % 256]

/-- SHA-256 of a byte list, as the 32 digest bytes. -/
def sha256Bytes (msg : List Nat) : List Nat :=
  ((chunksOf 15 (toWords (sha256Pad msg))).foldl compressBlock H256).flatMap
    wordBytes

/-- Lower-case hex digit of a value below 16. -/
def hexDigit (n : Nat) : Char :=
  if n < 10 then Char.ofNat (48 + n) else Char.ofNat (87 + n)

/-- Lower-case hex string of a byte list, Python `hexdigest`. -/
def toHex (bytes : List Nat) : String :=
  String.mk (bytes.flatMap fun b => [hexDigit (b / 16), hexDigit (b % 16)])

/-- UTF-8 bytes of a string, Python `str.encode()`. -/
def strBytes (s : String) : List Nat :=
  s.toUTF8.toList.map UInt8.toNat

/-- `hmac.new(key, message, hashlib.sha256).digest()`: keys longer than the
64-byte block size are hashed first, the key is zero-padded to 64 bytes,
and the nested hash uses the `0x36`/`0x5c` pads. -/
def hmacSha256 (key msg : List Nat) : List Nat :=
  let k0 := if 64 < key.length then sha256Bytes key else key
  let k1 := k0 ++ List.replicate (64 - k0.length) 0
  sha256Bytes ((k1.map fun b => b ^^^ 92) ++
    sha256Bytes ((k1.map fun b => b ^^^ 54) ++ msg))

/-- `SecurityManager.generate_hmac` (`src/security.py` lines 383-388),
parameterised by the `SECURITY_SECRET` environment value. -/
def generate_hmac (secret data : String) : String :=
  toHex (hmacSha256 (strBytes secret) (strBytes data))

/-- `SecurityManager.verify_hmac` (`src/security.py` lines 390-393):
recompute the signature and compare; `hmac.compare_digest` is a
timing-safe string equality. -/
def verify_hmac (secret data signature : String) : Bool :=
  generate_hmac secret data == signature

/-- A string grows by one character when `"0"` is appended, so the result
is never the original string. -/
theorem append_zero_ne (s : String) : s ++ "0" ≠ s := by
  intro h
  have hl : (s ++ "0").length = s.length := congrArg String.length h
  rw [String.length_append] at hl
  have h0 : "0".length = 1 := rfl
  rw [h0] at hl
  omega

/-- C2 (amended): an existing counter is reset to `count = 1` with a fresh
window start, and the call allowed, exactly when the elapsed time since the
stored window start is strictly greater than the window length; the code
compares `window_start < now - window_seconds`, so the boundary case
`now - window_start = window_seconds` falls through to the increment
path. -/
theorem check_rate_limit_reset_strict (rd : RateData)
    (now limit window_seconds : Int)
    (h : window_seconds < now - rd.window_start) :
    check_rate_limit (some rd) now limit window_seconds =
      (true, ⟨1, now, now⟩) := by
  show (if rd.window_start < now - window_seconds then
      ((true : Bool), (⟨1, now, now⟩ : RateData))
    else
      (decide (rd.count + 1 ≤ limit), ⟨rd.count + 1, rd.window_start, now⟩)) =
    (true, ⟨1, now, now⟩)
  rw [if_pos (by omega)]

/-- Witness for C2: a counter started at time 0 with a 60-second window is
reset by a call at time 61. -/
theorem check_rate_limit_reset_strict_witness :
    (60 : Int) < 61 - (0 : Int) ∧
      check_rate_limit (some ⟨5, 0, 0⟩) 61 10 60 = (true, ⟨1, 61, 61⟩) :=
  ⟨by decide, check_rate_limit_reset_strict ⟨5, 0, 0⟩ 61 10 60 (by decide)⟩

/-- Counterexample to C2 as stated: with the counter at 5 since time 0 and
a 60-second window, a call at time 60 satisfies `now - windowStart =
windowSeconds`, yet under limit 5 the code denies the call and stores count
6 instead of returning allowed with a reset counter. -/
theorem check_rate_limit_boundary_cex :
    (check_rate_limit (some ⟨5, 0, 0⟩) 60 5 60).1 = false ∧
      (check_rate_limit (some ⟨5, 0, 0⟩) 60 5 60).2 ≠ ⟨1, 60, 60⟩ := by
  exact ⟨by decide, by decide⟩

/-- C3: the load-then-update of `check_rate_limit` is not atomic.  Two
calls on the same key interleaved as read-read-write-write both observe the
stored count 1 and the store ends at count 2, while two sequential calls
end at count 3: one increment is lost. -/
theorem check_rate_limit_lost_update :
    rate_apply_write (rate_apply_write (some ⟨1, 0, 0⟩) (some ⟨1, 0, 0⟩) 1 60)
        (some ⟨1, 0, 0⟩) 1 60 = some ⟨2, 0, 1⟩ ∧
      (run_rate_checks (some ⟨1, 0, 0⟩) [1, 1] 30 60).2 = some ⟨3, 0, 1⟩ := by
  exact ⟨by decide, by decide⟩

/-- C6: a raised persistence error inside the blocked check makes
`is_user_blocked` report not-blocked, a raised error inside the rate-limit
check makes `check_rate_limit` report within-limits, and the message gate
then passes the event on to the content scan instead of denying it or
propagating the error. -/
theorem security_gate_fails_open (e1 e2 : String)
    (now limit window_seconds : Int) (text : Option String) :
    is_user_blocked_db (Except.error e1) = false ∧
      check_rate_limit_db (Except.error e2) now limit window_seconds = true ∧
      on_pre_process_message (Except.error e1) (Except.error e2) now text =
        (match text with
         | some t =>
           if (detect_potential_attack t).1 then GateResult.denied_attack
           else GateResult.allowed
         | none => GateResult.allowed) := by
  refine ⟨rfl, rfl, ?_⟩
  cases text <;> rfl

/-- C8: verifying a freshly generated signature always succeeds, and any
signature other than the generated one is rejected, for every secret and
every payload. -/
theorem verify_hmac_spec (secret data : String) :
    verify_hmac secret data (generate_hmac secret data) = true ∧
      ∀ signature : String, signature ≠ generate_hmac secret data →
        verify_hmac secret data signature = false := by
  constructor
  · unfold verify_hmac
    exact beq_self_eq_true _
  · intro signature hs
    unfold verify_hmac
    exact beq_eq_false_iff_ne.mpr fun h => hs h.symm

/-- Witness for C8: corrupting a concrete signature by appending a
character makes verification fail. -/
theorem verify_hmac_spec_witness :
    verify_hmac "k" "abc" (generate_hmac "k" "abc" ++ "0") = false :=
  (verify_hmac_spec "k" "abc").2 (generate_hmac "k" "abc" ++ "0")
    (append_zero_ne (generate_hmac "k" "abc"))

/-- The SQL-injection probe of the spec scenario, the 11 characters
quote, space, `OR`, space, quote, `1`, quote, `=`, quote, `1`. -/
def sqlProbe : String :=
  String.mk [squote, ' ', 'O', 'R', ' ', squote, '1', squote, '=', squote, '1']

/-- A successful `findFirstMatch` really is the first match: the returned
index lies in the list, its predicate accepts the text, and every earlier
predicate rejects it. -/
theorem findFirstMatch_first (ps : List (List Char → Bool)) (l : List Char)
    (i : Nat) (h : findFirstMatch ps l = some i) :
    ∃ hi : i < ps.length,
      ps.get ⟨i, hi⟩ l = true ∧
        ∀ j (hj : j < ps.length), j < i → ps.get ⟨j, hj⟩ l = false := by
  induction ps generalizing i with
  | nil => simp [findFirstMatch] at h
  | cons p rest ih =>
    by_cases hp : p l
    · simp [findFirstMatch, hp] at h
      subst h
      exact ⟨by simp, hp, fun j hj hji => absurd hji (Nat.not_lt_zero j)⟩
    · simp [findFirstMatch, hp] at h
      obtain ⟨i0, hi0, rfl⟩ := h
      obtain ⟨hlt, hacc, hbefore⟩ := ih i0 hi0
      refine ⟨by simpa using Nat.succ_lt_succ hlt, by simpa using hacc, ?_⟩
      intro j hj hji
      cases j with
      | zero => simpa using Bool.of_not_eq_true hp
      | succ j0 =>
        have hj0 : j0 < rest.length := by simpa using hj
        simpa using hbefore j0 hj0 (Nat.lt_of_succ_lt_succ hji)

/-- C9: the scan is the pure first-match traversal of the ordered signature
list, and on the spec inputs it flags the script tag, the `javascript:`
URI and the SQL probe while letting plain text through; the boolean result
is exactly the presence of a matched signature. -/
theorem detect_potential_attack_spec :
    (detect_potential_attack "<script>alert(1)</script>").1 = true ∧
      (detect_potential_attack "javascript:doEvil()").1 = true ∧
      (detect_potential_attack sqlProbe).1 = true ∧
      (detect_potential_attack "Hello, see you Tuesday").1 = false ∧
      (∀ (s : String) (i : Nat), (detect_potential_attack s).2 = some i →
        ∃ hi : i < attack_patterns.length,
          attack_patterns.get ⟨i, hi⟩ (s.toList.map Char.toLower) = true ∧
            ∀ j (hj : j < attack_patterns.length), j < i →
              attack_patterns.get ⟨j, hj⟩ (s.toList.map Char.toLower) = false) ∧
      ∀ s : String,
        (detect_potential_attack s).1 = (detect_potential_attack s).2.isSome := by
  refine ⟨by decide, by decide, by decide, by decide, ?_, ?_⟩
  · intro s i h
    apply findFirstMatch_first
    unfold detect_potential_attack at h
    by_cases hs : s == ""
    · simp [hs] at h
    · rw [if_neg hs] at h
      revert h
      cases findFirstMatch attack_patterns (s.toList.map Char.toLower) with
      | none => intro h; exact absurd h (by simp)
      | some k => intro h; simpa using h
  · intro s
    unfold detect_potential_attack
    by_cases hs : s == ""
    · simp [hs]
    · rw [if_neg hs]
      cases findFirstMatch attack_patterns (s.toList.map Char.toLower) <;> simp

/-- Witness for C9: on the `javascript:` input the matched signature is the
second one, it accepts the lowercased text, and the script-tag signature
before it rejects the text. -/
theorem detect_potential_attack_spec_witness :
    ∃ hi : 1 < attack_patterns.length,
      attack_patterns.get ⟨1, hi⟩
          ("javascript:doEvil()".toList.map Char.toLower) = true ∧
        ∀ j (hj : j < attack_patterns.length), j < 1 →
          attack_patterns.get ⟨j, hj⟩
            ("javascript:doEvil()".toList.map Char.toLower) = false :=
  detect_potential_attack_spec.2.2.2.2.1 "javascript:doEvil()" 1 (by decide)

/-- C10: validation rejects an absent or empty value for every field type,
accepts any non-empty value for a field type with no registered rule, and
otherwise applies the registered rule; on the spec inputs the rank rule
accepts `3k` and rejects `40k`, and the date rule accepts `2025-03-15` and
rejects `15-03-2025`. -/
theorem validate_input_spec :
    (∀ t : String, validate_input t none = false ∧
      validate_input t (some "") = false) ∧
      (∀ t v : String, patterns t = none → ¬v = "" →
        validate_input t (some v) = true) ∧
      (∀ (t v : String) (p : List Char → Bool), patterns t = some p →
        ¬v = "" → validate_input t (some v) = p v.toList) ∧
      validate_input "rank" (some "3k") = true ∧
      validate_input "rank" (some "40k") = false ∧
      validate_input "date" (some "2025-03-15") = true ∧
      validate_input "date" (some "15-03-2025") = false := by
  refine ⟨fun t => ⟨rfl, rfl⟩, ?_, ?_, by decide, by decide, by decide, by decide⟩
  · intro t v hp hv
    simp only [validate_input]
    rw [if_neg (by simpa using hv), hp]
  · intro t v p hp hv
    simp only [validate_input]
    rw [if_neg (by simpa using hv), hp]

/-- Witness for C10: a field type with no registered rule accepts a
non-empty value. -/
theorem validate_input_spec_witness :
    validate_input "tournament_note" (some "free text") = true :=
  validate_input_spec.2.1 "tournament_note" "free text" rfl (by decide)

/-- A run of checks produces one decision per call. -/
theorem run_rate_checks_length (st : Option RateData) (ts : List Int)
    (L W : Int) : (run_rate_checks st ts L W).1.length = ts.length := by
  induction ts generalizing st with
  | nil => rfl
  | cons t ts ih => simpa [run_rate_checks] using ih _

/-- While every call time stays within `W` seconds of the stored window
start, no reset fires: the `i`-th decision of the run is exactly whether
the incremented count `c + i + 1` is within the limit. -/
theorem run_rate_checks_no_reset (ts : List Int) (c t0 last L W : Int)
    (hwin : ∀ t ∈ ts, t - t0 ≤ W) (i : Nat) (hi : i < ts.length) :
    (run_rate_checks (some ⟨c, t0, last⟩) ts L W).1[i]? =
      some (decide (c + (i : Int) + 1 ≤ L)) := by
  induction ts generalizing c last i with
  | nil => simp at hi
  | cons t ts ih =>
    have hnr : ¬t0 < t - W := by
      have := hwin t (List.mem_cons_self t ts)
      omega
    simp only [run_rate_checks, check_rate_limit]
    rw [if_neg hnr]
    cases i with
    | zero =>
      simp only [List.getElem?_cons_zero, Option.some.injEq]
      norm_num
    | succ i0 =>
      rw [List.getElem?_cons_succ]
      have hi0 : i0 < ts.length := by
        simpa using Nat.lt_of_succ_lt_succ hi
      rw [ih (c + 1) t (fun u hu => hwin u (List.mem_cons_of_mem t hu)) i0 hi0]
      congr 1
      have : c + 1 + (i0 : Int) + 1 = c + ((i0 : Nat) + 1 : Nat) + 1 := by
        push_cast
        ring
      rw [this]

/-- C1 (amended to limits of at least 1): starting with no counter, a
sequence of `L + 1` calls all within `W` seconds of the first call yields
allowed for the first `L` decisions and denied for the `(L+1)`-th; in
particular 31 calls within 10 seconds under limit 30 per 60 seconds yield
30 allowed decisions followed by one denial. -/
theorem check_rate_limit_first_window (L W t0 : Int) (ts : List Int)
    (hL : 1 ≤ L) (hlen : (ts.length : Int) = L)
    (hwin : ∀ t ∈ ts, t - t0 ≤ W) :
    (∀ i : Nat, (i : Int) < L →
      (run_rate_checks none (t0 :: ts) L W).1[i]? = some true) ∧
      (run_rate_checks none (t0 :: ts) L W).1[ts.length]? = some false ∧
      (run_rate_checks none ((0 : Int) :: List.replicate 30 (5 : Int)) 30 60).1 =
        List.replicate 30 true ++ [false] := by
  have hrun : (run_rate_checks none (t0 :: ts) L W).1 =
      true :: (run_rate_checks (some ⟨1, t0, t0⟩) ts L W).1 := rfl
  refine ⟨?_, ?_, by decide⟩
  · intro i hi
    rw [hrun]
    cases i with
    | zero => simp
    | succ i0 =>
      rw [List.getElem?_cons_succ]
      have hi0 : i0 < ts.length := by omega
      rw [run_rate_checks_no_reset ts 1 t0 t0 L W hwin i0 hi0]
      simp only [Option.some.injEq, decide_eq_true_eq]
      omega
  · rw [hrun]
    have hlen1 : 1 ≤ ts.length := by omega
    obtain ⟨n, hn⟩ : ∃ n, ts.length = n + 1 := ⟨ts.length - 1, by omega⟩
    rw [hn, List.getElem?_cons_succ]
    rw [run_rate_checks_no_reset ts 1 t0 t0 L W hwin n (by omega)]
    simp only [Option.some.injEq, decide_eq_false_iff_not]
    rw [hn] at hlen
    push_cast at hlen
    omega

/-- Witness for C1: under limit 2 and window 60, three calls at times 0, 1
and 2 produce a denial at the third decision. -/
theorem check_rate_limit_first_window_witness :
    (run_rate_checks none [(0 : Int), 1, 2] 2 60).1[2]? = some false :=
  (check_rate_limit_first_window 2 60 0 [1, 2] (by decide) (by decide)
    (by decide)).2.1

/-- Counterexample to C1 as universally stated: with limit `L = 0` the
`(L+1)`-th call (the very first one) is allowed, because a missing counter
document is created and allowed without consulting the limit. -/
theorem check_rate_limit_zero_limit_cex :
    (run_rate_checks none [(0 : Int)] 0 60).1 = [true] ∧
      (run_rate_checks none [(0 : Int)] 0 60).1 ≠ [false] := by
  exact ⟨by decide, by decide⟩

/-- Replacing the first block of a user by another block of the same user
leaves every per-user record count unchanged. -/
theorem countP_updateFirstBlock (l : List Block) (uid : Int) (nb : Block)
    (hnb : nb.user_id = uid) (u : Int) :
    (updateFirstBlock l uid nb).countP (fun b => b.user_id == u) =
      l.countP (fun b => b.user_id == u) := by
  induction l with
  | nil => rfl
  | cons b rest ih =>
    by_cases hb : b.user_id == uid
    · have hbeq : b.user_id = uid := by simpa using hb
      simp [updateFirstBlock, hb, List.countP_cons, hnb, hbeq]
    · simp [updateFirstBlock, hb, List.countP_cons, ih]

/-- After replacing the first block of a user, looking that user up finds
the replacement. -/
theorem find?_updateFirstBlock (l : List Block) (uid : Int) (nb : Block)
    (hnb : nb.user_id = uid)
    (h : (l.find? fun b => b.user_id == uid).isSome) :
    (updateFirstBlock l uid nb).find? (fun b => b.user_id == uid) =
      some nb := by
  induction l with
  | nil => simp [List.find?] at h
  | cons b rest ih =>
    by_cases hb : (b.user_id == uid) = true
    · simp only [updateFirstBlock]
      rw [if_pos hb]
      rw [List.find?_cons_of_pos (p := fun x : Block => x.user_id == uid) _ (by simp [hnb])]
    · simp only [updateFirstBlock]
      rw [if_neg hb]
      rw [List.find?_cons_of_neg (p := fun x : Block => x.user_id == uid) _ hb] at h
      rw [List.find?_cons_of_neg (p := fun x : Block => x.user_id == uid) _ hb]
      exact ih h

/-- The block upsert always leaves the freshly built document as the one
found for the user. -/
theorem block_user_find? (st : SecState) (uid : Int) (r : String)
    (a : Option Int) (d : Option Int) (t : Int) :
    (block_user st uid r a d t).blocked_users.find?
        (fun b => b.user_id == uid) = some (block_data uid r a d t) := by
  have hnb : (block_data uid r a d t).user_id = uid := rfl
  simp only [block_user]
  by_cases h : (st.blocked_users.find? fun b => b.user_id == uid).isSome
  · rw [if_pos h]
    exact find?_updateFirstBlock _ _ _ hnb h
  · rw [if_neg h]
    have hnone : st.blocked_users.find? (fun b => b.user_id == uid) = none :=
      Option.not_isSome_iff_eq_none.mp h
    rw [List.find?_append, hnone]
    simp [List.find?_cons, hnb]

/-- The block upsert does not touch the record count of any other user. -/
theorem block_user_countP_other (st : SecState) (uid : Int) (r : String)
    (a : Option Int) (d : Option Int) (t : Int) (u : Int) (hne : ¬u = uid) :
    (block_user st uid r a d t).blocked_users.countP
        (fun b => b.user_id == u) =
      st.blocked_users.countP (fun b => b.user_id == u) := by
  have hnb : (block_data uid r a d t).user_id = uid := rfl
  simp only [block_user]
  by_cases h : (st.blocked_users.find? fun b => b.user_id == uid).isSome
  · rw [if_pos h]
    exact countP_updateFirstBlock _ _ _ hnb u
  · rw [if_neg h]
    have : ¬(block_data uid r a d t).user_id == u := by
      simpa [hnb] using fun hx => hne hx.symm
    simp [List.countP_append, List.countP_cons, this]

/-- Starting from at most one record for the user, the block upsert leaves
exactly one. -/
theorem block_user_countP_self (st : SecState) (uid : Int) (r : String)
    (a : Option Int) (d : Option Int) (t : Int)
    (h : st.blocked_users.countP (fun b => b.user_id == uid) ≤ 1) :
    (block_user st uid r a d t).blocked_users.countP
        (fun b => b.user_id == uid) = 1 := by
  have hnb : (block_data uid r a d t).user_id = uid := rfl
  simp only [block_user]
  by_cases hf : (st.blocked_users.find? fun b => b.user_id == uid).isSome
  · rw [if_pos hf]
    rw [countP_updateFirstBlock _ _ _ hnb uid]
    obtain ⟨b, hb⟩ := Option.isSome_iff_exists.mp hf
    have hmem := List.mem_of_find?_eq_some hb
    have hpb := List.find?_some hb
    have hpos : 0 < st.blocked_users.countP (fun b => b.user_id == uid) :=
      List.countP_pos_iff.mpr ⟨b, hmem, hpb⟩
    omega
  · rw [if_neg hf]
    have hnone : st.blocked_users.find? (fun b => b.user_id == uid) = none :=
      Option.not_isSome_iff_eq_none.mp hf
    have hzero : st.blocked_users.countP (fun b => b.user_id == uid) = 0 :=
      List.countP_eq_zero.mpr fun b hb =>
        by simpa using List.find?_eq_none.mp hnone b hb
    simp [List.countP_append, List.countP_cons, hnb, hzero]

/-- C5: the block upsert keeps at most one record per actor, that record is
the one just written, and blocking the same actor twice leaves exactly one
record, the later one. -/
theorem block_user_single_record (st : SecState) (uid : Int) (r1 r2 : String)
    (a1 a2 : Option Int) (d1 d2 : Option Int) (t1 t2 : Int) (u : Int)
    (h : st.blocked_users.countP (fun b => b.user_id == u) ≤ 1) :
    (block_user st uid r1 a1 d1 t1).blocked_users.countP
        (fun b => b.user_id == u) ≤ 1 ∧
      (block_user st uid r1 a1 d1 t1).blocked_users.find?
        (fun b => b.user_id == uid) = some (block_data uid r1 a1 d1 t1) ∧
      (u = uid →
        (block_user (block_user st uid r1 a1 d1 t1) uid r2 a2 d2 t2).blocked_users.countP
            (fun b => b.user_id == uid) = 1 ∧
          (block_user (block_user st uid r1 a1 d1 t1) uid r2 a2 d2 t2).blocked_users.find?
            (fun b => b.user_id == uid) = some (block_data uid r2 a2 d2 t2)) := by
  refine ⟨?_, block_user_find? st uid r1 a1 d1 t1, ?_⟩
  · by_cases hu : u = uid
    · subst hu
      rw [block_user_countP_self st u r1 a1 d1 t1 h]
    · rw [block_user_countP_other st uid r1 a1 d1 t1 u hu]
      exact h
  · intro hu
    subst hu
    have h1 : (block_user st u r1 a1 d1 t1).blocked_users.countP
        (fun b => b.user_id == u) = 1 :=
      block_user_countP_self st u r1 a1 d1 t1 h
    exact ⟨block_user_countP_self _ u r2 a2 d2 t2 (le_of_eq h1),
      block_user_find? _ u r2 a2 d2 t2⟩

/-- Witness for C5: blocking actor 1 twice from an empty registry leaves
one record, the later one. -/
theorem block_user_single_record_witness :
    (block_user (block_user ⟨[], []⟩ 1 "first" none none 0)
        1 "second" none (some 3) 7).blocked_users.countP
      (fun b => b.user_id == 1) = 1 :=
  ((block_user_single_record ⟨[], []⟩ 1 "first" "second" none none none
    (some 3) 0 7 1 (by decide)).2.2 rfl).1

/-- With at most one record for the user present, deleting the first match
is the same as filtering out every match. -/
theorem eraseFirstBlock_eq_filter (l : List Block) (uid : Int)
    (h : l.countP (fun b => b.user_id == uid) ≤ 1) :
    eraseFirstBlock l uid = l.filter fun b => !(b.user_id == uid) := by
  induction l with
  | nil => rfl
  | cons b rest ih =>
    by_cases hb : (b.user_id == uid) = true
    · simp only [eraseFirstBlock]
      rw [if_pos hb]
      rw [List.filter_cons_of_neg (by simp [hb])]
      have hrest : rest.countP (fun b => b.user_id == uid) = 0 := by
        rw [List.countP_cons, if_pos hb] at h
        omega
      symm
      exact List.filter_eq_self.mpr fun b hbm => by
        have := List.countP_eq_zero.mp hrest b hbm
        simpa using this
    · simp only [eraseFirstBlock]
      rw [if_neg hb]
      rw [List.filter_cons_of_pos (by simp [hb])]
      rw [List.countP_cons] at h
      simp only [hb, if_false] at h
      rw [ih (by omega)]

/-- Filtering a user out of the registry makes the lookup for that user
fail. -/
theorem find?_filter_not (l : List Block) (uid : Int) :
    (l.filter fun b => !(b.user_id == uid)).find?
      (fun b => b.user_id == uid) = none := by
  rw [List.find?_eq_none]
  intro x hx
  have hmem := (List.mem_filter.mp hx).2
  simpa using hmem

/-- C7: unblocking returns false exactly when no block record for the user
exists, and then changes nothing; when a record exists it returns true,
appends a `user_unblocked` event, deletes the record (leaving the registry
filtered of that user), after which the user is no longer blocked. -/
theorem unblock_user_spec (st : SecState) (uid : Int) (a : Option Int)
    (now : Int)
    (h : st.blocked_users.countP (fun b => b.user_id == uid) ≤ 1) :
    ((unblock_user st uid a now).1 = false ↔
      st.blocked_users.find? (fun b => b.user_id == uid) = none) ∧
      ((unblock_user st uid a now).1 = false →
        (unblock_user st uid a now).2 = st) ∧
      ((unblock_user st uid a now).1 = true →
        SecEvent.mk "user_unblocked" uid "info" now none ∈
          (unblock_user st uid a now).2.security_logs ∧
          is_user_blocked (unblock_user st uid a now).2 uid = false ∧
          (unblock_user st uid a now).2.blocked_users =
            st.blocked_users.filter fun b => !(b.user_id == uid)) := by
  cases hfind : st.blocked_users.find? fun b => b.user_id == uid with
  | none =>
    simp [unblock_user, hfind]
  | some b =>
    have h1 : unblock_user st uid a now =
        (true,
          ⟨st.security_logs ++ [⟨"user_unblocked", uid, "info", now, none⟩],
            eraseFirstBlock st.blocked_users uid⟩) := by
      simp only [unblock_user, hfind]
    rw [h1]
    refine ⟨by simp [hfind], by simp, fun _ => ⟨by simp, ?_, ?_⟩⟩
    · show (List.find? _ (eraseFirstBlock st.blocked_users uid)).isSome = false
      rw [eraseFirstBlock_eq_filter st.blocked_users uid h, find?_filter_not]
      rfl
    · exact eraseFirstBlock_eq_filter st.blocked_users uid h

/-- Witness for C7: unblocking the single blocked actor 1 leaves it
unblocked. -/
theorem unblock_user_spec_witness :
    is_user_blocked
      (unblock_user ⟨[], [⟨1, "spam", 0, none, none⟩]⟩ 1 none 5).2 1 = false :=
  ((unblock_user_spec ⟨[], [⟨1, "spam", 0, none, none⟩]⟩ 1 none 5
    (by decide)).2.2 (by decide)).2.1

/-- A needle that is a prefix of the haystack in particular occurs in it. -/
theorem containsSeg_of_isPrefixOf (n l : List Char) (h : n.isPrefixOf l) :
    containsSeg n l = true := by
  cases l with
  | nil =>
    cases n with
    | nil => rfl
    | cons a as => simp [List.isPrefixOf] at h
  | cons c rest => simp [containsSeg, h]

/-- The automated block reason built by `process_suspicious_message`
contains the text `Automated block`, whatever the detection reason. -/
theorem containsStr_automated (reason : String) :
    containsStr "Automated block"
      ("Automated block: Multiple suspicious messages (" ++ reason ++ ")") =
      true := by
  have hjoin : "Automated block: Multiple suspicious messages (" =
      "Automated block" ++ ": Multiple suspicious messages (" := by decide
  rw [hjoin]
  unfold containsStr
  apply containsSeg_of_isPrefixOf
  rw [List.isPrefixOf_iff_prefix]
  simp only [String.toList, String.data_append, List.append_assoc]
  exact List.prefix_append _ _

/-- C4: processing a suspicious message first logs it; when the actor's
trailing-24-hour count of `suspicious_message` events, the one just logged
included, reaches 3, the actor is automatically blocked for one day
(86400 seconds) with a reason containing `Automated block`, and a
`user_blocked` audit event carrying that reason is written; below 3 the
state only gains the logged event and no block occurs. -/
theorem process_suspicious_message_autoblock (st : SecState) (uid : Int)
    (reason : String) (now : Int) :
    (3 ≤ count_recent_suspicious
        (log_security_event st "suspicious_message" uid (some reason)
          "warning" now) uid now →
      (process_suspicious_message st uid reason now).blocked_users.find?
          (fun b => b.user_id == uid) =
        some ⟨uid,
          "Automated block: Multiple suspicious messages (" ++ reason ++ ")",
          now, none, some (now + 86400)⟩ ∧
        containsStr "Automated block"
          ("Automated block: Multiple suspicious messages (" ++ reason ++ ")") =
          true ∧
        SecEvent.mk "user_blocked" uid "warning" now
            (some ("Automated block: Multiple suspicious messages (" ++
              reason ++ ")")) ∈
          (process_suspicious_message st uid reason now).security_logs) ∧
      (count_recent_suspicious
          (log_security_event st "suspicious_message" uid (some reason)
            "warning" now) uid now < 3 →
        process_suspicious_message st uid reason now =
          log_security_event st "suspicious_message" uid (some reason)
            "warning" now) := by
  constructor
  · intro hc
    have hrun : process_suspicious_message st uid reason now =
        block_user
          (log_security_event st "suspicious_message" uid (some reason)
            "warning" now) uid
          ("Automated block: Multiple suspicious messages (" ++ reason ++ ")")
          none (some 1) now := by
      simp only [process_suspicious_message]
      rw [if_pos hc]
    rw [hrun]
    refine ⟨?_, containsStr_automated reason, ?_⟩
    · have hfind := block_user_find?
        (log_security_event st "suspicious_message" uid (some reason)
          "warning" now) uid
        ("Automated block: Multiple suspicious messages (" ++ reason ++ ")")
        none (some 1) now
      have hbd : block_data uid
          ("Automated block: Multiple suspicious messages (" ++ reason ++ ")")
          none (some 1) now =
          ⟨uid,
            "Automated block: Multiple suspicious messages (" ++ reason ++ ")",
            now, none, some (now + 86400)⟩ := by
        simp [block_data]
      rw [hbd] at hfind
      exact hfind
    · simp [block_user]
  · intro hc
    simp only [process_suspicious_message]
    rw [if_neg (by omega)]

/-- Witness for C4: with two suspicious events already on record inside the
day, a third suspicious message by actor 7 at time 100 yields an automatic
block whose record carries the automated reason and a 1-day expiry. -/
theorem process_suspicious_message_autoblock_witness :
    (process_suspicious_message
        ⟨[⟨"suspicious_message", 7, "warning", 100, none⟩,
          ⟨"suspicious_message", 7, "warning", 100, none⟩], []⟩
        7 "xss" 100).blocked_users.find? (fun b => b.user_id == 7) =
      some ⟨7, "Automated block: Multiple suspicious messages (" ++ "xss" ++ ")",
        100, none, some (100 + 86400)⟩ :=
  ((process_suspicious_message_autoblock
    ⟨[⟨"suspicious_message", 7, "warning", 100, none⟩,
      ⟨"suspicious_message", 7, "warning", 100, none⟩], []⟩
    7 "xss" 100).1 (by decide)).1
